import Mathlib

/-
Verification of the redisgo cache facade (package redisgo, file
src/unnamed/part_000) by a shallow embedding in Lean.

Go dynamic values (interface\x7b\x7d) are embedded as the inductive GoVal;
Go float64 values are embedded as exact decimal numbers (structure Dec),
since every float in this code base is produced by parsing a decimal
reply token and no float arithmetic is performed.  Go errors and runtime
panics are embedded as the inductive GoErr; fallible Go code returns
Except GoErr.  The redigo conversion helpers (redis.String, redis.Int64,
redis.Float64, redis.Values) and encoding/json, which the package calls,
are embedded from their documented behaviour on the value shapes this
package exchanges with them.
-/

namespace Redisgo

deriving instance DecidableEq for Except

/-- Exact decimal number, the model of a Go float64 in this development:
the represented value is mant / 10 ^ exp.  Every float64 handled by the
package is obtained by strconv-style parsing of a decimal reply token
(via redis.Float64), so exact decimals are a faithful carrier; no float
arithmetic occurs anywhere in the embedded code. -/
structure Dec where
  mant : Int
  exp : Nat
deriving DecidableEq

/-- The zero value of a Go float64. -/
def zeroDec : Dec := ⟨0, 0⟩

/-- Go error values returned by the embedded code, plus Go runtime panics
(index out of range, calling a nil function value), which the embedding
makes explicit instead of crashing. -/
inductive GoErr where
  | errNil
  | typeErr (msg : String)
  | decodeErr (msg : String)
  | panicOutOfRange
  | panicNilFunc
deriving DecidableEq

/-- Representative composite (non-scalar) Go value stored through the codec.
It mirrors the struct used by the repository's own test (fields Name string
and Age int, json keys "name" and "age"); the age is kept non-negative so
that the embedded json layer needs only unsigned decimal rendering. -/
structure RecordA where
  name : String
  age : Nat
deriving DecidableEq

/-- Embedding of the Go dynamic values (interface\x7b\x7d) this package passes
around: nil, the primitive scalar kinds named in encode's type switch, byte
slices (reply bulk strings), nested reply arrays, and the representative
composite record. -/
inductive GoVal where
  | VNil
  | VBool (b : Bool)
  | VString (s : String)
  | VBytes (s : String)
  | VInt (n : Int)
  | VInt8 (n : Int)
  | VInt16 (n : Int)
  | VInt32 (n : Int)
  | VInt64 (n : Int)
  | VUint (n : Nat)
  | VUint8 (n : Nat)
  | VUint16 (n : Nat)
  | VUint32 (n : Nat)
  | VUint64 (n : Nat)
  | VFloat32 (d : Dec)
  | VFloat64 (d : Dec)
  | VArr (vs : List GoVal)
  | VComposite (r : RecordA)

/-- Numeric value of a decimal digit character (0 for non-digits; only ever
applied to digit characters in this development). -/
def charVal (c : Char) : Nat :=
  match c with
  | '0' => 0 | '1' => 1 | '2' => 2 | '3' => 3 | '4' => 4
  | '5' => 5 | '6' => 6 | '7' => 7 | '8' => 8 | '9' => 9
  | _ => 0

/-- Decimal digit character of a digit value below ten. -/
def digitChar (d : Nat) : Char :=
  match d with
  | 0 => '0' | 1 => '1' | 2 => '2' | 3 => '3' | 4 => '4'
  | 5 => '5' | 6 => '6' | 7 => '7' | 8 => '8' | _ => '9'

/-- Split a character list into its maximal digit run and the remainder. -/
def readDigits : List Char → List Char × List Char
  | [] => ([], [])
  | c :: cs =>
    if c.isDigit then
      let p := readDigits cs
      (c :: p.1, p.2)
    else ([], c :: cs)

/-- Little-endian decimal digits of n, with explicit fuel so that the
definition is structural and kernel-reducible; intended with fuel at least
n, returns [] for n = 0. -/
def natDigitsLE : Nat → Nat → List Char
  | 0, _ => []
  | fuel + 1, n => if n = 0 then [] else digitChar (n % 10) :: natDigitsLE fuel (n / 10)

/-- Big-endian decimal rendering of a natural number. -/
def natDigits (n : Nat) : List Char :=
  if n = 0 then ['0'] else (natDigitsLE n n).reverse

/-- Value of a little-endian digit list. -/
def valLE : List Char → Nat
  | [] => 0
  | c :: cs => charVal c + 10 * valLE cs

/-- Value of a big-endian digit list. -/
def digitsToNat (cs : List Char) : Nat := valLE cs.reverse

/-- Decimal rendering of a natural number as a string. -/
def natStr (n : Nat) : String := String.mk (natDigits n)

/-- Parse an unsigned decimal token (digits with optional fraction part)
into an exact decimal. -/
def parseUnsignedDec (cs : List Char) : Option Dec :=
  match readDigits cs with
  | ([], _) => none
  | (ds, []) => some ⟨(digitsToNat ds : Int), 0⟩
  | (ds, '.' :: rest) =>
    match readDigits rest with
    | (fs, []) =>
      if fs = [] then none
      else some ⟨(digitsToNat ds * 10 ^ fs.length + digitsToNat fs : Int), fs.length⟩
    | (_, _ :: _) => none
  | (_, _ :: _) => none

/-- Model of strconv.ParseFloat as used through redis.Float64 on the decimal
tokens the store sends: optional leading minus sign, digits, optional
fraction.  (Exponent and non-decimal forms never occur in these replies and
are not modelled.) -/
def parseFloat (s : String) : Option Dec :=
  match s.data with
  | '-' :: rest => (parseUnsignedDec rest).map (fun d => ⟨-d.mant, d.exp⟩)
  | cs => parseUnsignedDec cs

/-- Model of strconv.ParseInt on decimal tokens: optional minus sign and
digits. -/
def parseIntStr (s : String) : Option Int :=
  match s.data with
  | '-' :: rest =>
    match readDigits rest with
    | (ds, []) => if ds = [] then none else some (-(digitsToNat ds : Int))
    | (_, _ :: _) => none
  | cs =>
    match readDigits cs with
    | (ds, []) => if ds = [] then none else some ((digitsToNat ds : Int))
    | (_, _ :: _) => none

/-- Model of redigo redis.String(reply, err): propagates err, converts byte
slices and strings, ErrNil on nil, and a type error otherwise. -/
def goString (reply : GoVal) (errIn : Option GoErr) : Except GoErr String :=
  match errIn with
  | some e => .error e
  | none =>
    match reply with
    | .VBytes s => .ok s
    | .VString s => .ok s
    | .VNil => .error .errNil
    | _ => .error (.typeErr "redigo: unexpected type for String")

/-- Model of redigo redis.Int64(reply, err): propagates err, passes int64
replies through, parses byte slices, ErrNil on nil, type error otherwise. -/
def goInt64 (reply : GoVal) (errIn : Option GoErr) : Except GoErr Int :=
  match errIn with
  | some e => .error e
  | none =>
    match reply with
    | .VInt64 n => .ok n
    | .VBytes s =>
      match parseIntStr s with
      | some n => .ok n
      | none => .error (.typeErr "strconv.ParseInt: invalid syntax")
    | .VNil => .error .errNil
    | _ => .error (.typeErr "redigo: unexpected type for Int64")

/-- Model of redigo redis.Float64(reply, err): propagates err, parses byte
slices with strconv.ParseFloat, ErrNil on nil, type error otherwise. -/
def goFloat64 (reply : GoVal) (errIn : Option GoErr) : Except GoErr Dec :=
  match errIn with
  | some e => .error e
  | none =>
    match reply with
    | .VBytes s =>
      match parseFloat s with
      | some d => .ok d
      | none => .error (.typeErr "strconv.ParseFloat: invalid syntax")
    | .VNil => .error .errNil
    | _ => .error (.typeErr "redigo: unexpected type for Float64")

/-- Model of redigo redis.Values(reply, err): propagates err, passes reply
arrays through, ErrNil on nil, type error otherwise. -/
def goValues (reply : GoVal) (errIn : Option GoErr) : Except GoErr (List GoVal) :=
  match errIn with
  | some e => .error e
  | none =>
    match reply with
    | .VArr vs => .ok vs
    | .VNil => .error .errNil
    | _ => .error (.typeErr "redigo: unexpected type for Values")

/-- Go slice indexing p[n]: out-of-range access is a runtime panic, made
explicit here as the error panicOutOfRange. -/
def idx (xs : List GoVal) (n : Nat) : Except GoErr GoVal :=
  match xs, n with
  | [], _ => .error .panicOutOfRange
  | x :: _, 0 => .ok x
  | _ :: rest, n + 1 => idx rest n

/-- Model of encoding/json json.Marshal on the representative composite
record: the object text with keys "name" and "age" in declaration order,
as Go renders it.  String escaping is not modelled; round-trip statements
therefore carry a hypothesis that the name needs no escaping. -/
def jsonMarshalA (r : RecordA) : String :=
  "\x7b\"name\":\"" ++ r.name ++ "\"" ++ ",\"age\":" ++ natStr r.age ++ "\x7d"

/-- Drop an expected leading character sequence, or fail. -/
def stripLead : List Char → List Char → Option (List Char)
  | [], cs => some cs
  | _ :: _, [] => none
  | p :: ps, c :: cs => if c = p then stripLead ps cs else none

/-- Take characters up to the first double quote; returns the content and
the remainder after the quote, or fails when no quote occurs. -/
def takeUntilQuote : List Char → Option (List Char × List Char)
  | [] => none
  | c :: cs =>
    if c = '"' then some ([], cs)
    else
      match takeUntilQuote cs with
      | none => none
      | some (a, b) => some (c :: a, b)

/-- Model of encoding/json json.Unmarshal into the representative composite
record shape: accepts exactly the object form produced by jsonMarshalA. -/
def jsonUnmarshalA (s : String) : Except GoErr RecordA :=
  match stripLead ("\x7b\"name\":\"").data s.data with
  | none => .error (.typeErr "json: cannot unmarshal into RecordA")
  | some r1 =>
    match takeUntilQuote r1 with
    | none => .error (.typeErr "json: cannot unmarshal into RecordA")
    | some (nameCs, r2) =>
      match stripLead (",\"age\":").data r2 with
      | none => .error (.typeErr "json: cannot unmarshal into RecordA")
      | some r3 =>
        match readDigits r3 with
        | (ds, rest) =>
          if ds = [] then .error (.typeErr "json: cannot unmarshal into RecordA")
          else if rest = ['\x7d'] then .ok ⟨String.mk nameCs, digitsToNat ds⟩
          else .error (.typeErr "json: cannot unmarshal into RecordA")

/-- Model of encoding/json json.Marshal on the value kinds that can reach it
through this package's encode (whose type switch already passed the other
scalar kinds through): fixed-width unsigned integers render as decimal
text, nil as null, and the representative composite as its object text.
Byte slices and reply arrays never reach json.Marshal in the claims settled
here and are left as a model-level error. -/
def jsonMarshal : GoVal → Except GoErr String
  | .VComposite r => .ok (jsonMarshalA r)
  | .VUint8 n => .ok (natStr n)
  | .VUint16 n => .ok (natStr n)
  | .VUint32 n => .ok (natStr n)
  | .VUint64 n => .ok (natStr n)
  | .VNil => .ok "null"
  | _ => .error (.typeErr "json: value kind not modelled")

/-- True when the string contains no character that json.Marshal would
escape (double quote or backslash). -/
def jsonSafeB (s : String) : Bool :=
  s.data.all fun c => c ≠ '"' && c ≠ '\\'

/-- The configuration the source stores into the redigo redis.Pool literal
(src/unnamed/part_000 lines 71-98).  The literal sets MaxActive, MaxIdle,
IdleTimeout and the Dial/TestOnBorrow closures and nothing else; in
particular redigo's Wait field is left at its false zero value, recorded
here explicitly.  The Dial closure's parameters (network, addr, password,
db) are recorded as data; the dial/auth/select exchanges themselves are
network effects outside this embedding. -/
structure PoolConfig where
  network : String
  addr : String
  password : String
  db : Int
  maxActive : Int
  maxIdle : Int
  idleTimeoutSecs : Int
  wait : Bool
deriving DecidableEq

/-- The Cacher struct (lines 21-26): pool, key name lead string, and the
two codec function fields.  Go function fields are nil-able, hence Option;
calling a nil one is the runtime panic panicNilFunc.  The source field
named after the key lead is called keyPfx here. -/
structure Cacher where
  pool : Option PoolConfig
  keyPfx : String
  marshal : Option (GoVal → Except GoErr String)
  unmarshal : Option (String → Except GoErr RecordA)

/-- The Options struct (lines 29-40), same field order as the source. -/
structure Options where
  network : String
  addr : String
  password : String
  db : Int
  maxActive : Int
  maxIdle : Int
  idleTimeout : Int
  keyPfx : String
  marshal : Option (GoVal → Except GoErr String)
  unmarshal : Option (String → Except GoErr RecordA)

/-- The Go zero value of Cacher, as allocated by New. -/
def emptyCacher : Cacher := ⟨none, "", none, none⟩

/-- The Go zero value of Options. -/
def baseOptions : Options := ⟨"", "", "", 0, 0, 0, 0, "", none, none⟩

/-- Model of Cacher.StartAndGC (lines 50-106).  The none argument stands for
a dynamic argument that is not an Options value, which the source rejects
with "Unsupported options".  Note the source assigns c.marshal only when
opts.Marshal is nil (and likewise for unmarshal): a caller-supplied
override is never stored.  The process-exit signal hook (closePool, line
101) only closes the pool at process death and is not otherwise observable
in the data modelled here. -/
def StartAndGC (c : Cacher) (options : Option Options) : Except String Cacher :=
  match options with
  | none => .error "Unsupported options"
  | some opts =>
    let network := if opts.network = "" then "tcp" else opts.network
    let addr := if opts.addr = "" then "127.0.0.1:6379" else opts.addr
    let maxIdle := if opts.maxIdle = 0 then 3 else opts.maxIdle
    let idleTimeout := if opts.idleTimeout = 0 then 300 else opts.idleTimeout
    let c1 := if opts.marshal.isNone then { c with marshal := some jsonMarshal } else c
    let c2 := if opts.unmarshal.isNone then { c1 with unmarshal := some jsonUnmarshalA } else c1
    let poolCfg : PoolConfig :=
      { network := network, addr := addr, password := opts.password, db := opts.db,
        maxActive := opts.maxActive, maxIdle := maxIdle,
        idleTimeoutSecs := idleTimeout, wait := false }
    .ok { c2 with pool := some poolCfg }

/-- Model of New (lines 43-47): allocate a zero Cacher and run StartAndGC on
it; the handle is returned in either case (with an Options argument the
error branch is unreachable). -/
def New (options : Options) : Cacher :=
  match StartAndGC emptyCacher (some options) with
  | .ok c => c
  | .error _ => emptyCacher

/-- A handle created with all-zero options, i.e. the default codec. -/
def defaultCacher : Cacher := New baseOptions

/-- Model of Cacher.encode (lines 779-792): the primitive scalar kinds named
in the type switch (string, int, uint, int8, int16, int32, int64, float32,
float64, bool) pass through unchanged; every other value is given to
c.marshal and the resulting bytes are stored as a string. -/
def encode (c : Cacher) (val : GoVal) : Except GoErr GoVal :=
  match val with
  | .VString s => .ok (.VString s)
  | .VInt n => .ok (.VInt n)
  | .VUint n => .ok (.VUint n)
  | .VInt8 n => .ok (.VInt8 n)
  | .VInt16 n => .ok (.VInt16 n)
  | .VInt32 n => .ok (.VInt32 n)
  | .VInt64 n => .ok (.VInt64 n)
  | .VFloat32 d => .ok (.VFloat32 d)
  | .VFloat64 d => .ok (.VFloat64 d)
  | .VBool b => .ok (.VBool b)
  | v =>
    match c.marshal with
    | none => .error .panicNilFunc
    | some m =>
      match m v with
      | .error e => .error e
      | .ok b => .ok (.VString b)

/-- Model of Cacher.decode (lines 795-801): convert the reply to text with
the String helper, then run c.unmarshal on its bytes. -/
def decode (c : Cacher) (reply : GoVal) (errIn : Option GoErr) : Except GoErr RecordA :=
  match goString reply errIn with
  | .error e => .error e
  | .ok str =>
    match c.unmarshal with
    | none => .error .panicNilFunc
    | some u => u str

/-- Model of Cacher.getKey (lines 773-776): the stored lead string is
prepended to the caller's key. -/
def getKey (c : Cacher) (key : String) : String := c.keyPfx ++ key

/-- Outgoing command of Cacher.Get (lines 116-118). -/
def GetCmd (c : Cacher) (key : String) : String × List GoVal :=
  ("GET", [.VString (getKey c key)])

/-- Outgoing command of Cacher.Del (lines 167-170). -/
def DelCmd (c : Cacher) (key : String) : String × List GoVal :=
  ("DEL", [.VString (getKey c key)])

/-- Outgoing command of Cacher.Set (lines 148-159): encode the value, then
SETEX with the expiry when positive, else SET. -/
def SetCmd (c : Cacher) (key : String) (val : GoVal) (expire : Int) :
    Except GoErr (String × List GoVal) :=
  match encode c val with
  | .error e => .error e
  | .ok value =>
    if expire > 0 then .ok ("SETEX", [.VString (getKey c key), .VInt expire, value])
    else .ok ("SET", [.VString (getKey c key), value])

/-- Outgoing command of Cacher.HGet (lines 258-261). -/
def HGetCmd (c : Cacher) (key field : String) : String × List GoVal :=
  ("HGET", [.VString (getKey c key), .VString field])

/-- Outgoing command of Cacher.ZAdd (lines 502-504). -/
def ZAddCmd (c : Cacher) (key : String) (score : Int) (member : String) :
    String × List GoVal :=
  ("ZADD", [.VString (getKey c key), .VInt64 score, .VString member])

/-- Outgoing command of Cacher.GeoAdd (lines 627-630). -/
def GeoAddCmd (c : Cacher) (key : String) (longitude latitude : Dec) (member : String) :
    String × List GoVal :=
  ("GEOADD", [.VString (getKey c key), .VFloat64 longitude, .VFloat64 latitude,
    .VString member])

/-- The GeoOptions struct (lines 609-615). -/
structure GeoOptions where
  withCoord : Bool
  withDist : Bool
  withHash : Bool
  order : String
  count : Int
deriving DecidableEq

/-- The GeoResult struct (lines 618-624), same field order as the source. -/
structure GeoResult where
  name : String
  longitude : Dec
  latitude : Dec
  dist : Dec
  hash : Int
deriving DecidableEq

/-- The Go zero value of GeoResult, as allocated by &GeoResult\x7b\x7d. -/
def zeroGeoResult : GeoResult := ⟨"", zeroDec, zeroDec, zeroDec, 0⟩

/-- Model of the per-element body of toGeoResult (lines 723-767), for the
element p = values[i].  The running position pos starts at 0 (the name) and
is incremented before each requested field, exactly as in the source; every
p[pos] and pp[...] access goes through idx, so a field list shorter than
the positions the options imply surfaces as panicOutOfRange.  In the
coordinate branch the source parses pp[0] into lat and pp[1] into lon and
then assigns Latitude := lat and Longitude := lon, and skips both
assignments silently when the pair is empty; both behaviours are
reproduced.  In the wrong-shape branch the source formats p[i] (with the
outer index i) into the error message, so that expression is evaluated
before the error returns. -/
def decodeGeoElem (p : List GoVal) (i : Nat) (options : GeoOptions) :
    Except GoErr GeoResult := do
  let v0 ← idx p 0
  let name ← goString v0 none
  let r := { zeroGeoResult with name := name }
  let pos : Nat := 0
  let (r, pos) ←
    if options.withDist then do
      let pos := pos + 1
      let vd ← idx p pos
      let dist ← goFloat64 vd none
      pure (({ r with dist := dist }, pos) : GeoResult × Nat)
    else pure ((r, pos) : GeoResult × Nat)
  let (r, pos) ←
    if options.withHash then do
      let pos := pos + 1
      let vh ← idx p pos
      let hash ← goInt64 vh none
      pure (({ r with hash := hash }, pos) : GeoResult × Nat)
    else pure ((r, pos) : GeoResult × Nat)
  let r ←
    if options.withCoord then do
      let pos := pos + 1
      let vc ← idx p pos
      match vc with
      | .VArr pp =>
        if pp.length > 0 then do
          let v0p ← idx pp 0
          let lat ← goFloat64 v0p none
          let v1p ← idx pp 1
          let lon ← goFloat64 v1p none
          pure { r with latitude := lat, longitude := lon }
        else pure r
      | _ => do
        let _ ← idx p i
        Except.error (.decodeErr "redisgo: unexpected element type for interface slice")
    else pure r
  pure r

/-- Model of the loop of toGeoResult (lines 714-769) over the reply values,
carrying the running index i: a nil element leaves its slot absent (none)
and the loop continues; a non-array element is a decode error; otherwise
the element body runs and its record fills the slot. -/
def decodeGeoList (options : GeoOptions) : List GoVal → Nat →
    Except GoErr (List (Option GeoResult))
  | [], _ => .ok []
  | v :: rest, i =>
    match v with
    | .VNil =>
      match decodeGeoList options rest (i + 1) with
      | .ok rs => .ok (none :: rs)
      | .error e => .error e
    | .VArr p =>
      match decodeGeoElem p i options with
      | .ok r =>
        match decodeGeoList options rest (i + 1) with
        | .ok rs => .ok (some r :: rs)
        | .error e => .error e
      | .error e => .error e
    | _ => .error (.decodeErr "redisgo: unexpected element type for interface slice")

/-- Model of toGeoResult (lines 709-771): redis.Values on the reply, then
the decoding loop from index 0. -/
def toGeoResult (reply : GoVal) (err : Option GoErr) (options : GeoOptions) :
    Except GoErr (List (Option GeoResult)) :=
  match goValues reply err with
  | .error e => .error e
  | .ok values => decodeGeoList options values 0

/-- Model of Cacher.GeoDist (lines 648-651): the source discards the value
of the redis.Float64 conversion with a blank identifier and returns the
constant 0 together with only the error. -/
def GeoDist (reply : GoVal) (errIn : Option GoErr) : Dec × Option GoErr :=
  match goFloat64 reply errIn with
  | .ok _ => (zeroDec, none)
  | .error e => (zeroDec, some e)

/-- One item produced by redigo PubSubConn.Receive, as classified by the
type switch in Subscribe's receive goroutine (lines 580-590): a delivered
message, a subscription notice, or a transport error. -/
inductive RecvItem where
  | message (channel : String) (data : String)
  | subscription (channel : String) (kind : String) (count : Int)
  | recvError
deriving DecidableEq

/-- Environment behaviour of one subscribe attempt: either the SUBSCRIBE
request itself fails, or it succeeds and the connection then yields the
given items in order (a recvError item ends the session). -/
inductive AttemptOutcome where
  | subFail
  | subOk (items : List RecvItem)
deriving DecidableEq

/-- Observable actions of the subscription engine, in causal order: a
SUBSCRIBE request for a channel set, a fixed sleep (seconds), a dispatch of
a delivered message to the caller's handler, and closing the stale
connection. -/
inductive SubEvent where
  | attempt (channels : List String)
  | sleep (seconds : Nat)
  | handlerCall (channel : String) (data : String)
  | closeConn
deriving DecidableEq

/-- Events of one active session (the receive loop, lines 578-592): each
message item dispatches the handler, subscription notices are only printed,
and a transport error ends the loop (second component true) without any
handler call; items after the error are never received. -/
def sessionEvents : List RecvItem → List SubEvent × Bool
  | [] => ([], false)
  | .message c d :: rest =>
    let p := sessionEvents rest
    (.handlerCall c d :: p.1, p.2)
  | .subscription _ _ _ :: rest => sessionEvents rest
  | .recvError :: _ => ([], true)

/-- Trace of Cacher.Subscribe (lines 565-602) for a fixed handler and
channel set, against a list of environment outcomes, one per subscribe
attempt.  A failed attempt sleeps one second and re-invokes Subscribe with
the same arguments (lines 570-574); a session that ends in a transport
error wakes the retry goroutine, which sleeps one second, closes the stale
connection and re-invokes Subscribe with the same arguments (lines
595-600); a session with no error leaves the engine blocked in Receive, so
the trace ends.  The two goroutines are linearised in this causal order. -/
def subscribeTrace (channels : List String) : List AttemptOutcome → List SubEvent
  | [] => []
  | .subFail :: rest =>
    .attempt channels :: .sleep 1 :: subscribeTrace channels rest
  | .subOk items :: rest =>
    match sessionEvents items with
    | (es, true) =>
      .attempt channels :: (es ++ .sleep 1 :: .closeConn :: subscribeTrace channels rest)
    | (es, false) => .attempt channels :: es

/-- True when the item list contains a transport error. -/
def hasRecvError : List RecvItem → Bool
  | [] => false
  | .recvError :: _ => true
  | _ :: rest => hasRecvError rest

/-- True when every successful session in the outcome list is ended by a
transport error (so the engine never parks and every outcome is consumed). -/
def errTerminatedB : List AttemptOutcome → Bool
  | [] => true
  | .subFail :: rest => errTerminatedB rest
  | .subOk items :: rest => hasRecvError items && errTerminatedB rest

/-- Recogniser for attempt events. -/
def isAttempt : SubEvent → Bool
  | .attempt _ => true
  | _ => false

/-- Recogniser for connection-close events. -/
def isClose : SubEvent → Bool
  | .closeConn => true
  | _ => false

/-- Recogniser for successful-subscription outcomes. -/
def isOkOutcome : AttemptOutcome → Bool
  | .subOk _ => true
  | _ => false

/-- Runtime state of the connection pool: the number of connections
currently lent out. -/
structure PoolState where
  active : Nat
deriving DecidableEq

/-- Result of one pool acquisition. -/
inductive AcquireResult where
  | conn
  | exhaustedErr
  | blocked
deriving DecidableEq

/-- Model of the gomodule/redigo Pool.Get bound check, from that library's
documented semantics: when MaxActive is positive and that many connections
are already active, Get blocks only when the pool's Wait option is true and
otherwise returns an ErrPoolExhausted error connection immediately; below
the bound a connection is lent out.  The repository's pool literal (lines
71-98) leaves Wait at its false zero value, recorded in PoolConfig.wait. -/
def acquire (cfg : PoolConfig) (st : PoolState) : PoolState × AcquireResult :=
  if 0 < cfg.maxActive ∧ cfg.maxActive ≤ (st.active : Int) then
    if cfg.wait then (st, .blocked) else (st, .exhaustedErr)
  else (⟨st.active + 1⟩, .conn)

/-- Returning a connection to the pool. -/
def release (st : PoolState) : PoolState := ⟨st.active - 1⟩

/-- The pass-through kinds of the source's encode type switch (line 782):
string, int, uint, int8, int16, int32, int64, float32, float64, bool. -/
def isPassThroughKind : GoVal → Bool
  | .VString _ | .VInt _ | .VUint _ | .VInt8 _ | .VInt16 _ | .VInt32 _ | .VInt64 _
  | .VFloat32 _ | .VFloat64 _ | .VBool _ => true
  | _ => false

/-- Follows the spec's words: a primitive scalar is text, any integer width
signed or unsigned, any floating-point width, or boolean.  Kept separate
from isPassThroughKind so the two can be compared. -/
def isPrimScalarSpec : GoVal → Bool
  | .VString _ | .VInt _ | .VInt8 _ | .VInt16 _ | .VInt32 _ | .VInt64 _
  | .VUint _ | .VUint8 _ | .VUint16 _ | .VUint32 _ | .VUint64 _
  | .VFloat32 _ | .VFloat64 _ | .VBool _ => true
  | _ => false

/-- The fixed-width unsigned integer kinds. -/
def isFixedUnsigned : GoVal → Bool
  | .VUint8 _ | .VUint16 _ | .VUint32 _ | .VUint64 _ => true
  | _ => false

/-- Characterisation of the handle built by New: the pool carries the
defaulted options and a false wait flag, the key lead string is never
copied from the options, and each codec field is set to its json default
exactly when the corresponding override is absent, the override itself
being dropped. -/
theorem new_eq (opts : Options) :
    New opts =
      { pool := some ⟨if opts.network = "" then "tcp" else opts.network,
          if opts.addr = "" then "127.0.0.1:6379" else opts.addr,
          opts.password, opts.db, opts.maxActive,
          if opts.maxIdle = 0 then 3 else opts.maxIdle,
          if opts.idleTimeout = 0 then 300 else opts.idleTimeout, false⟩,
        keyPfx := "",
        marshal := if opts.marshal.isNone then some jsonMarshal else none,
        unmarshal := if opts.unmarshal.isNone then some jsonUnmarshalA else none } := by
  unfold New StartAndGC emptyCacher
  by_cases hm : opts.marshal.isNone <;> by_cases hu : opts.unmarshal.isNone <;>
    simp [hm, hu]

/-- C1: evaluation of the geo decoder at the concrete failing input.  For
options (distance=true, coordinates=true, hash=false) and the raw element
[name, dist, [lon, lat]] = ["A", "0.5", ["1.5", "2.5"]], the decoded record
carries the pair's first element 1.5 in Latitude and its second element 2.5
in Longitude: the source (lines 753-762) parses pp[0] into lat and pp[1]
into lon, the opposite of the claimed (and wire-order) assignment. -/
theorem C1_coord_swap_eval :
    toGeoResult (.VArr [.VArr [.VBytes "A", .VBytes "0.5",
        .VArr [.VBytes "1.5", .VBytes "2.5"]]]) none ⟨true, true, false, "", 0⟩ =
      .ok [some ⟨"A", ⟨25, 1⟩, ⟨15, 1⟩, ⟨5, 1⟩, 0⟩] := rfl

/-- C5: wrong-shape geo elements are not turned into decode errors.  With
coordinates requested, an element whose coordinate pair is empty decodes
successfully into a silently-zeroed record; a one-element pair and a field
list shorter than the positions the options imply both hit an out-of-range
index (a Go runtime panic), not a returned error. -/
theorem C5_wrong_shape_not_error :
    (toGeoResult (.VArr [.VArr [.VBytes "A", .VArr []]]) none ⟨true, false, false, "", 0⟩ =
      .ok [some ⟨"A", zeroDec, zeroDec, zeroDec, 0⟩])
    ∧ (toGeoResult (.VArr [.VArr [.VBytes "A", .VArr [.VBytes "1.5"]]]) none
        ⟨true, false, false, "", 0⟩ = .error .panicOutOfRange)
    ∧ (toGeoResult (.VArr [.VArr [.VBytes "A"]]) none ⟨false, true, false, "", 0⟩ =
        .error .panicOutOfRange) := ⟨rfl, rfl, rfl⟩

/-- C3: a caller-supplied codec override is never stored.  StartAndGC only
assigns the codec fields when the override is absent, so a handle built
with overrides keeps nil codec functions: a later composite encode or a
structural decode calls a nil function value (a Go runtime panic) and the
override is never invoked. -/
theorem C3_override_dropped (f : GoVal → Except GoErr String)
    (g : String → Except GoErr RecordA) :
    ((New { baseOptions with marshal := some f, unmarshal := some g }).marshal = none)
    ∧ ((New { baseOptions with marshal := some f, unmarshal := some g }).unmarshal = none)
    ∧ (encode (New { baseOptions with marshal := some f, unmarshal := some g })
        (.VComposite ⟨"a", 1⟩) = .error .panicNilFunc)
    ∧ (decode (New { baseOptions with marshal := some f, unmarshal := some g })
        (.VBytes "x") none = .error .panicNilFunc) :=
  ⟨rfl, rfl, rfl, rfl⟩

/-- C2 (amended): encode passes a value through unchanged exactly when its
kind is in the source's type-switch list (text, bool, both float widths,
the signed widths and plain uint), and hands every other value to the
configured marshal function, storing the produced bytes as text; the kinds
the claim calls primitive scalars but the switch omits are exactly the
fixed-width unsigned integers, which therefore take the serialization path. -/
theorem C2_encode_dual_path (c : Cacher) (v : GoVal) :
    (encode c v =
      if isPassThroughKind v then .ok v
      else
        match c.marshal with
        | none => .error .panicNilFunc
        | some m =>
          match m v with
          | .error e => .error e
          | .ok b => .ok (.VString b))
    ∧ ((isPrimScalarSpec v = true ∧ isPassThroughKind v = false) ↔ isFixedUnsigned v = true) := by
  constructor
  · cases v <;> simp [encode, isPassThroughKind]
  · cases v <;> simp [isPrimScalarSpec, isPassThroughKind, isFixedUnsigned]

/-- C2, counterexample: a uint8 value is a primitive scalar in the claim's
sense, yet the default codec does not pass it through: it is serialized to
the text "5". -/
theorem C2_uint8_serialized :
    encode defaultCacher (.VUint8 5) = .ok (.VString (natStr 5))
    ∧ natStr 5 = "5"
    ∧ isPrimScalarSpec (.VUint8 5) = true
    ∧ GoVal.VString "5" ≠ GoVal.VUint8 5 :=
  ⟨rfl, by decide, rfl, fun h => GoVal.noConfusion h⟩

/-- C4, counterexample: with the default codec, decoding the encoding of the
primitive scalar 42 does not yield 42.  Encode passes the int through
unchanged, and decode's String conversion then rejects it with a type
error, because the structural decode path only accepts textual replies. -/
theorem C4_scalar_decode_error :
    encode defaultCacher (.VInt 42) = .ok (.VInt 42)
    ∧ decode defaultCacher (.VInt 42) none =
        .error (.typeErr "redigo: unexpected type for String") :=
  ⟨rfl, rfl⟩

/-- C8, counterexample: a handle configured with max-active 1 carries a pool
whose wait flag is false, so with one connection already borrowed the next
acquire returns the exhausted-pool error connection immediately instead of
blocking. -/
theorem C8_exhausted_fails_fast :
    (New { baseOptions with maxActive := 1 }).pool =
      some ⟨"tcp", "127.0.0.1:6379", "", 0, 1, 3, 300, false⟩
    ∧ acquire ⟨"tcp", "127.0.0.1:6379", "", 0, 1, 3, 300, false⟩ ⟨1⟩ = (⟨1⟩, .exhaustedErr)
    ∧ AcquireResult.exhaustedErr ≠ AcquireResult.blocked := by
  refine ⟨rfl, by decide, fun h => AcquireResult.noConfusion h⟩

/-- C8 (amended): every handle's pool has the wait flag false; when the
configured max-active bound is positive, an acquire at the bound fails fast
with the exhausted-pool error (it neither blocks nor lends a connection),
and an acquire below the bound keeps the number of borrowed connections
within the bound. -/
theorem C8_pool_bound (opts : Options) (st : PoolState) (cfg : PoolConfig)
    (h : (New opts).pool = some cfg) :
    cfg.wait = false
    ∧ (0 < cfg.maxActive → cfg.maxActive ≤ (st.active : Int) →
        acquire cfg st = (st, .exhaustedErr))
    ∧ (0 < cfg.maxActive → (st.active : Int) ≤ cfg.maxActive →
        ((acquire cfg st).1.active : Int) ≤ cfg.maxActive) := by
  have hw : cfg.wait = false := by
    rw [new_eq] at h
    simp only [Option.some.injEq] at h
    rw [← h]
  refine ⟨hw, ?_, ?_⟩
  · intro h1 h2
    unfold acquire
    rw [if_pos (And.intro h1 h2), hw]
    simp
  · intro h1 h2
    unfold acquire
    by_cases hfull : 0 < cfg.maxActive ∧ cfg.maxActive ≤ (st.active : Int)
    · rw [if_pos hfull, hw]
      simpa using h2
    · rw [if_neg hfull]
      simp only []
      push_cast
      omega

/-- Witness for C8_pool_bound at max-active 1 with one connection borrowed. -/
theorem C8_pool_bound_witness :
    PoolConfig.wait ⟨"tcp", "127.0.0.1:6379", "", 0, 1, 3, 300, false⟩ = false
    ∧ acquire ⟨"tcp", "127.0.0.1:6379", "", 0, 1, 3, 300, false⟩ ⟨1⟩ =
        (⟨1⟩, .exhaustedErr) := by
  have h := C8_pool_bound { baseOptions with maxActive := 1 } ⟨1⟩
    ⟨"tcp", "127.0.0.1:6379", "", 0, 1, 3, 300, false⟩ rfl
  exact ⟨h.1, h.2.1 (by decide) (by decide)⟩

/-- C9: the options' key lead string is never stored on the handle, so
getKey is the identity on the caller's key and every embedded operation
sends exactly the caller-supplied key to the store. -/
theorem C9_lead_never_stored (opts : Options) (key field member s : String)
    (score expire : Int) (lon lat : Dec) :
    (New opts).keyPfx = ""
    ∧ getKey (New opts) key = key
    ∧ (GetCmd (New opts) key).2 = [.VString key]
    ∧ (DelCmd (New opts) key).2 = [.VString key]
    ∧ (HGetCmd (New opts) key field).2 = [.VString key, .VString field]
    ∧ (ZAddCmd (New opts) key score member).2 =
        [.VString key, .VInt64 score, .VString member]
    ∧ (GeoAddCmd (New opts) key lon lat member).2 =
        [.VString key, .VFloat64 lon, .VFloat64 lat, .VString member]
    ∧ SetCmd (New opts) key (.VString s) expire =
        (if expire > 0 then .ok ("SETEX", [.VString key, .VInt expire, .VString s])
         else .ok ("SET", [.VString key, .VString s])) := by
  rw [new_eq]
  exact ⟨rfl, rfl, rfl, rfl, rfl, rfl, rfl, rfl⟩

/-- C10: GeoDist returns the zero distance whenever the underlying command
and conversion succeed; the converted value is discarded, so the caller
never observes the store's actual distance, and only the error is
propagated. -/
theorem C10_geodist_returns_zero (reply : GoVal) (errIn : Option GoErr) :
    (GeoDist reply errIn).1 = zeroDec
    ∧ ∀ d : Dec, goFloat64 reply errIn = .ok d → GeoDist reply errIn = (zeroDec, none) := by
  refine ⟨?_, ?_⟩
  · cases h : goFloat64 reply errIn <;> simp [GeoDist, h]
  · intro d h
    simp [GeoDist, h]

/-- Witness for C10 at the concrete successful reply "3.5": the conversion
yields 3.5 but the returned distance is 0. -/
theorem C10_geodist_returns_zero_witness :
    (GeoDist (.VBytes "3.5") none).1 = zeroDec
    ∧ GeoDist (.VBytes "3.5") none = (zeroDec, none) :=
  ⟨(C10_geodist_returns_zero (.VBytes "3.5") none).1,
   (C10_geodist_returns_zero (.VBytes "3.5") none).2 ⟨35, 1⟩ (by decide)⟩

/-- The character list of a string concatenation. -/
theorem strData_append (s t : String) : (s ++ t).data = s.data ++ t.data := by
  cases s
  cases t
  rfl

/-- stripLead succeeds on exactly its expected leading sequence. -/
theorem stripLead_append (ps rest : List Char) : stripLead ps (ps ++ rest) = some rest := by
  induction ps with
  | nil => rfl
  | cons p ps ih => simp [stripLead, ih]

/-- takeUntilQuote splits at the first quote when the head part has none. -/
theorem takeUntilQuote_append (name rest : List Char) (h : '"' ∉ name) :
    takeUntilQuote (name ++ '"' :: rest) = some (name, rest) := by
  induction name with
  | nil => simp [takeUntilQuote]
  | cons c cs ih =>
    have hc : ¬(c = '"') := fun hh => h (by rw [hh]; exact List.mem_cons_self _ _)
    simp [takeUntilQuote, hc, ih (fun hm => h (List.mem_cons_of_mem _ hm))]

/-- readDigits consumes exactly a digit run followed by a non-digit. -/
theorem readDigits_append (ds rest : List Char)
    (hds : ∀ c ∈ ds, c.isDigit = true)
    (hrest : ∀ c, rest.head? = some c → c.isDigit = false) :
    readDigits (ds ++ rest) = (ds, rest) := by
  induction ds with
  | nil =>
    cases rest with
    | nil => rfl
    | cons c cs =>
      have hc := hrest c rfl
      simp [readDigits, hc]
  | cons c cs ih =>
    have hc := hds c (List.mem_cons_self c cs)
    simp [readDigits, hc, ih (fun x hx => hds x (List.mem_cons_of_mem _ hx))]

/-- Rendered digits are digit characters. -/
theorem digitChar_isDigit (d : Nat) : (digitChar d).isDigit = true := by
  unfold digitChar
  split <;> rfl

/-- charVal inverts digitChar below ten. -/
theorem charVal_digitChar (d : Nat) (h : d < 10) : charVal (digitChar d) = d := by
  interval_cases d <;> rfl

/-- Every character in a fueled digit rendering is a digit. -/
theorem natDigitsLE_all_digits (fuel n : Nat) : ∀ c ∈ natDigitsLE fuel n, c.isDigit = true := by
  induction fuel generalizing n with
  | zero => intro c hc; simp [natDigitsLE] at hc
  | succ fuel ih =>
    intro c hc
    by_cases h0 : n = 0
    · simp [natDigitsLE, h0] at hc
    · rw [show natDigitsLE (fuel + 1) n = digitChar (n % 10) :: natDigitsLE fuel (n / 10) from by
        simp [natDigitsLE, h0]] at hc
      rcases List.mem_cons.mp hc with h1 | h2
      · subst h1; exact digitChar_isDigit _
      · exact ih _ c h2

/-- A fueled digit rendering evaluates back to its number. -/
theorem valLE_natDigitsLE (fuel n : Nat) (h : n ≤ fuel) : valLE (natDigitsLE fuel n) = n := by
  induction fuel generalizing n with
  | zero =>
    have h0 : n = 0 := Nat.le_zero.mp h
    subst h0
    rfl
  | succ fuel ih =>
    by_cases h0 : n = 0
    · subst h0; rfl
    · have hdiv : n / 10 ≤ fuel := by omega
      show valLE (if n = 0 then [] else digitChar (n % 10) :: natDigitsLE fuel (n / 10)) = n
      rw [if_neg h0]
      show charVal (digitChar (n % 10)) + 10 * valLE (natDigitsLE fuel (n / 10)) = n
      rw [charVal_digitChar _ (Nat.mod_lt _ (by omega)), ih _ hdiv]
      omega

/-- Parsing the decimal rendering of a natural number returns it. -/
theorem digitsToNat_natDigits (n : Nat) : digitsToNat (natDigits n) = n := by
  unfold digitsToNat natDigits
  by_cases h : n = 0
  · subst h; rfl
  · rw [if_neg h, List.reverse_reverse]
    exact valLE_natDigitsLE n n le_rfl

/-- Every character of a decimal rendering is a digit. -/
theorem natDigits_all_digits (n : Nat) : ∀ c ∈ natDigits n, c.isDigit = true := by
  unfold natDigits
  by_cases h : n = 0
  · subst h
    intro c hc
    simp at hc
    subst hc
    rfl
  · rw [if_neg h]
    intro c hc
    exact natDigitsLE_all_digits n n c (List.mem_reverse.mp hc)

/-- A decimal rendering is never empty. -/
theorem natDigits_ne_nil (n : Nat) : natDigits n ≠ [] := by
  unfold natDigits
  by_cases h : n = 0
  · simp [h]
  · rw [if_neg h]
    cases n with
    | zero => exact absurd rfl h
    | succ m => simp [natDigitsLE, h]

/-- The object text of jsonMarshalA, reshaped for the parser. -/
theorem jsonMarshalA_data (r : RecordA) :
    (jsonMarshalA r).data =
      ("\x7b\"name\":\"").data ++
        (r.name.data ++ '"' :: ((",\"age\":").data ++ (natDigits r.age ++ ['\x7d']))) := by
  unfold jsonMarshalA natStr
  simp only [strData_append, List.append_assoc]
  rfl

/-- Round trip of the modelled json codec on the representative record,
provided the name needs no escaping. -/
theorem jsonRoundtripA (r : RecordA) (h : jsonSafeB r.name = true) :
    jsonUnmarshalA (jsonMarshalA r) = .ok r := by
  have hq : '"' ∉ r.name.data := by
    simp only [jsonSafeB, List.all_eq_true, Bool.and_eq_true, decide_eq_true_eq] at h
    intro hm
    exact (h _ hm).1 rfl
  unfold jsonUnmarshalA
  rw [jsonMarshalA_data, stripLead_append]
  dsimp only
  rw [takeUntilQuote_append _ _ hq]
  dsimp only
  rw [stripLead_append]
  dsimp only
  rw [readDigits_append _ _ (natDigits_all_digits r.age)
    (by intro c hc; simp at hc; subst hc; rfl)]
  dsimp only
  rw [if_neg (natDigits_ne_nil r.age), if_pos rfl, digitsToNat_natDigits]

/-- C4 (amended): with the default codec, the composite path round-trips:
for every representative record whose name needs no json escaping, encode
produces the object text and decode parses it back into an equal record.
(The primitive-scalar half of the claim fails; see the counterexample.) -/
theorem C4_composite_roundtrip (r : RecordA) (h : jsonSafeB r.name = true) :
    (encode defaultCacher (.VComposite r)).bind (fun w => decode defaultCacher w none) =
      .ok r := by
  show jsonUnmarshalA (jsonMarshalA r) = .ok r
  exact jsonRoundtripA r h

/-- Witness for C4 at the record (name "a", age 1). -/
theorem C4_composite_roundtrip_witness :
    jsonSafeB "a" = true
    ∧ (encode defaultCacher (.VComposite ⟨"a", 1⟩)).bind
        (fun w => decode defaultCacher w none) = .ok ⟨"a", 1⟩ :=
  ⟨by decide, C4_composite_roundtrip ⟨"a", 1⟩ (by decide)⟩

/-- The geo decoding loop preserves the reply's length and order and maps
exactly the nil reply slots to absent results, at any starting index. -/
theorem decodeGeoList_nil_spec (options : GeoOptions) (values : List GoVal) :
    ∀ (i : Nat) (rs : List (Option GeoResult)),
      decodeGeoList options values i = .ok rs →
      rs.length = values.length
      ∧ ∀ j : Nat, rs[j]? = some none ↔ values[j]? = some GoVal.VNil := by
  induction values with
  | nil =>
    intro i rs h
    simp only [decodeGeoList] at h
    cases h
    simp
  | cons v rest ih =>
    intro i rs h
    cases v
    case VNil =>
      simp only [decodeGeoList] at h
      cases hrec : decodeGeoList options rest (i + 1) with
      | error e => rw [hrec] at h; cases h
      | ok rs2 =>
        rw [hrec] at h
        cases h
        have ihh := ih (i + 1) rs2 hrec
        refine ⟨by simp [ihh.1], ?_⟩
        intro j
        cases j with
        | zero => simp
        | succ j => simpa using ihh.2 j
    case VArr p =>
      simp only [decodeGeoList] at h
      cases hel : decodeGeoElem p i options with
      | error e => rw [hel] at h; cases h
      | ok r =>
        rw [hel] at h
        cases hrec : decodeGeoList options rest (i + 1) with
        | error e => rw [hrec] at h; cases h
        | ok rs2 =>
          rw [hrec] at h
          cases h
          have ihh := ih (i + 1) rs2 hrec
          refine ⟨by simp [ihh.1], ?_⟩
          intro j
          cases j with
          | zero => simp
          | succ j => simpa using ihh.2 j
    all_goals simp only [decodeGeoList] at h
    all_goals cases h

/-- C6: a nil element position in the raw geo reply decodes to an absent
entry at the same index (neither an error nor a record), the surrounding
non-nil elements are still decoded, and the output sequence has the same
length and order as the reply. -/
theorem C6_null_elements_absent (values : List GoVal) (options : GeoOptions)
    (rs : List (Option GeoResult))
    (h : toGeoResult (.VArr values) none options = .ok rs) :
    rs.length = values.length
    ∧ ∀ j : Nat, rs[j]? = some none ↔ values[j]? = some GoVal.VNil := by
  have h2 : decodeGeoList options values 0 = .ok rs := h
  exact decodeGeoList_nil_spec options values 0 rs h2

/-- Witness for C6 on a three-element reply whose middle slot is nil. -/
theorem C6_null_elements_absent_witness :
    ([some ⟨"A", ⟨25, 1⟩, ⟨15, 1⟩, ⟨5, 1⟩, 0⟩, none,
        some ⟨"B", ⟨45, 1⟩, ⟨35, 1⟩, ⟨6, 1⟩, 0⟩] : List (Option GeoResult)).length = 3
    ∧ (([some ⟨"A", ⟨25, 1⟩, ⟨15, 1⟩, ⟨5, 1⟩, 0⟩, none,
          some ⟨"B", ⟨45, 1⟩, ⟨35, 1⟩, ⟨6, 1⟩, 0⟩] :
            List (Option GeoResult))[1]? = some none ↔
        ([.VArr [.VBytes "A", .VBytes "0.5", .VArr [.VBytes "1.5", .VBytes "2.5"]], .VNil,
          .VArr [.VBytes "B", .VBytes "0.6", .VArr [.VBytes "3.5", .VBytes "4.5"]]] :
            List GoVal)[1]? = some GoVal.VNil) := by
  have h := C6_null_elements_absent
    [.VArr [.VBytes "A", .VBytes "0.5", .VArr [.VBytes "1.5", .VBytes "2.5"]], .VNil,
     .VArr [.VBytes "B", .VBytes "0.6", .VArr [.VBytes "3.5", .VBytes "4.5"]]]
    ⟨true, true, false, "", 0⟩
    [some ⟨"A", ⟨25, 1⟩, ⟨15, 1⟩, ⟨5, 1⟩, 0⟩, none, some ⟨"B", ⟨45, 1⟩, ⟨35, 1⟩, ⟨6, 1⟩, 0⟩]
    rfl
  exact ⟨h.1, h.2 1⟩

/-- Every event of a session is a handler dispatch of a message delivered in
that session; in particular a transport error never reaches the handler. -/
theorem sessionEvents_mem (items : List RecvItem) :
    ∀ ev ∈ (sessionEvents items).1,
      ∃ c d, ev = SubEvent.handlerCall c d ∧ RecvItem.message c d ∈ items := by
  induction items with
  | nil => intro ev h; simp [sessionEvents] at h
  | cons it rest ih =>
    intro ev h
    cases it with
    | message c d =>
      simp only [sessionEvents] at h
      rcases List.mem_cons.mp h with h1 | h2
      · exact ⟨c, d, h1, List.mem_cons_self _ _⟩
      · obtain ⟨c2, d2, he, hm⟩ := ih ev h2
        exact ⟨c2, d2, he, List.mem_cons_of_mem _ hm⟩
    | subscription ch k n =>
      simp only [sessionEvents] at h
      obtain ⟨c2, d2, he, hm⟩ := ih ev h
      exact ⟨c2, d2, he, List.mem_cons_of_mem _ hm⟩
    | recvError => simp [sessionEvents] at h

/-- A session ends with the error flag set exactly when its items contain a
transport error. -/
theorem sessionEvents_snd (items : List RecvItem) :
    (sessionEvents items).2 = hasRecvError items := by
  induction items with
  | nil => rfl
  | cons it rest ih => cases it <;> simp [sessionEvents, hasRecvError, ih]

/-- The trace over a concatenated world splits at the boundary, provided
every session in the first part is error-terminated. -/
theorem subscribeTrace_append (channels : List String) (w1 w2 : List AttemptOutcome)
    (h : errTerminatedB w1 = true) :
    subscribeTrace channels (w1 ++ w2) =
      subscribeTrace channels w1 ++ subscribeTrace channels w2 := by
  induction w1 with
  | nil => rfl
  | cons o rest ih =>
    cases o with
    | subFail =>
      have hrest : errTerminatedB rest = true := h
      simp only [List.cons_append, subscribeTrace, List.append_eq]
      rw [ih hrest]
    | subOk items =>
      have hpair : hasRecvError items = true ∧ errTerminatedB rest = true := by
        simpa [errTerminatedB] using h
      have hsnd : (sessionEvents items).2 = true := by
        rw [sessionEvents_snd]; exact hpair.1
      simp only [List.cons_append, subscribeTrace]
      cases hse : sessionEvents items with
      | mk es b =>
        rw [hse] at hsnd
        have hb : b = true := hsnd
        subst hb
        simp only [List.append_eq]
        rw [ih hpair.2]
        simp [List.append_assoc]

/-- Every subscribe attempt in the trace carries the original channel set. -/
theorem trace_attempts_channels (channels : List String) (world : List AttemptOutcome) :
    ∀ ch, SubEvent.attempt ch ∈ subscribeTrace channels world → ch = channels := by
  induction world with
  | nil => intro ch h; simp [subscribeTrace] at h
  | cons o rest ih =>
    intro ch h
    cases o with
    | subFail =>
      simp only [subscribeTrace, List.mem_cons] at h
      rcases h with h1 | h1 | h1
      · exact SubEvent.attempt.inj h1
      · exact SubEvent.noConfusion h1
      · exact ih ch h1
    | subOk items =>
      simp only [subscribeTrace] at h
      cases hse : sessionEvents items with
      | mk es b =>
        rw [hse] at h
        cases b with
        | true =>
          simp only [List.mem_cons, List.mem_append] at h
          rcases h with h1 | h1
          · exact SubEvent.attempt.inj h1
          rcases h1 with h2 | h2
          · obtain ⟨c, d, he, _⟩ :=
              sessionEvents_mem items (SubEvent.attempt ch) (by rw [hse]; exact h2)
            exact SubEvent.noConfusion he
          rcases h2 with h3 | h3 | h3
          · exact SubEvent.noConfusion h3
          · exact SubEvent.noConfusion h3
          · exact ih ch h3
        | false =>
          simp only [List.mem_cons] at h
          rcases h with h1 | h1
          · exact SubEvent.attempt.inj h1
          · obtain ⟨c, d, he, _⟩ :=
              sessionEvents_mem items (SubEvent.attempt ch) (by rw [hse]; exact h1)
            exact SubEvent.noConfusion he

/-- Every sleep in the trace is the fixed one-second backoff. -/
theorem trace_sleeps_one (channels : List String) (world : List AttemptOutcome) :
    ∀ n, SubEvent.sleep n ∈ subscribeTrace channels world → n = 1 := by
  induction world with
  | nil => intro n h; simp [subscribeTrace] at h
  | cons o rest ih =>
    intro n h
    cases o with
    | subFail =>
      simp only [subscribeTrace, List.mem_cons] at h
      rcases h with h1 | h1 | h1
      · exact SubEvent.noConfusion h1
      · exact SubEvent.sleep.inj h1
      · exact ih n h1
    | subOk items =>
      simp only [subscribeTrace] at h
      cases hse : sessionEvents items with
      | mk es b =>
        rw [hse] at h
        cases b with
        | true =>
          simp only [List.mem_cons, List.mem_append] at h
          rcases h with h1 | h1
          · exact SubEvent.noConfusion h1
          rcases h1 with h2 | h2
          · obtain ⟨c, d, he, _⟩ :=
              sessionEvents_mem items (SubEvent.sleep n) (by rw [hse]; exact h2)
            exact SubEvent.noConfusion he
          rcases h2 with h3 | h3 | h3
          · exact SubEvent.sleep.inj h3
          · exact SubEvent.noConfusion h3
          · exact ih n h3
        | false =>
          simp only [List.mem_cons] at h
          rcases h with h1 | h1
          · exact SubEvent.noConfusion h1
          · obtain ⟨c, d, he, _⟩ :=
              sessionEvents_mem items (SubEvent.sleep n) (by rw [hse]; exact h1)
            exact SubEvent.noConfusion he

/-- Every handler dispatch in the trace carries a message that some
successful session actually delivered; subscribe failures and transport
errors are never handed to the handler. -/
theorem trace_handler_only_messages (channels : List String) (world : List AttemptOutcome) :
    ∀ c d, SubEvent.handlerCall c d ∈ subscribeTrace channels world →
      ∃ items, AttemptOutcome.subOk items ∈ world ∧ RecvItem.message c d ∈ items := by
  induction world with
  | nil => intro c d h; simp [subscribeTrace] at h
  | cons o rest ih =>
    intro c d h
    cases o with
    | subFail =>
      simp only [subscribeTrace, List.mem_cons] at h
      rcases h with h1 | h1 | h1
      · exact SubEvent.noConfusion h1
      · exact SubEvent.noConfusion h1
      · obtain ⟨items, hin, hm⟩ := ih c d h1
        exact ⟨items, List.mem_cons_of_mem _ hin, hm⟩
    | subOk items =>
      simp only [subscribeTrace] at h
      cases hse : sessionEvents items with
      | mk es b =>
        rw [hse] at h
        cases b with
        | true =>
          simp only [List.mem_cons, List.mem_append] at h
          rcases h with h1 | h1
          · exact SubEvent.noConfusion h1
          rcases h1 with h2 | h2
          · obtain ⟨c2, d2, he, hm⟩ :=
              sessionEvents_mem items (SubEvent.handlerCall c d) (by rw [hse]; exact h2)
            obtain ⟨hc, hd⟩ := SubEvent.handlerCall.inj he
            subst hc
            subst hd
            exact ⟨items, List.mem_cons_self _ _, hm⟩
          rcases h2 with h3 | h3 | h3
          · exact SubEvent.noConfusion h3
          · exact SubEvent.noConfusion h3
          · obtain ⟨items2, hin, hm⟩ := ih c d h3
            exact ⟨items2, List.mem_cons_of_mem _ hin, hm⟩
        | false =>
          simp only [List.mem_cons] at h
          rcases h with h1 | h1
          · exact SubEvent.noConfusion h1
          · obtain ⟨c2, d2, he, hm⟩ :=
              sessionEvents_mem items (SubEvent.handlerCall c d) (by rw [hse]; exact h1)
            obtain ⟨hc, hd⟩ := SubEvent.handlerCall.inj he
            subst hc
            subst hd
            exact ⟨items, List.mem_cons_self _ _, hm⟩

/-- In an error-terminated world the engine makes one attempt per outcome
(so reattempts are unbounded) and closes one stale connection per
successful session. -/
theorem trace_counts (channels : List String) (world : List AttemptOutcome)
    (h : errTerminatedB world = true) :
    (subscribeTrace channels world).countP isAttempt = world.length
    ∧ (subscribeTrace channels world).countP isClose = world.countP isOkOutcome := by
  induction world with
  | nil => simp [subscribeTrace]
  | cons o rest ih =>
    cases o with
    | subFail =>
      have hrest : errTerminatedB rest = true := h
      have ihh := ih hrest
      simp [subscribeTrace, List.countP_cons, isAttempt, isClose, isOkOutcome, ihh.1, ihh.2]
    | subOk items =>
      have hpair : hasRecvError items = true ∧ errTerminatedB rest = true := by
        simpa [errTerminatedB] using h
      have hsnd : (sessionEvents items).2 = true := by
        rw [sessionEvents_snd]; exact hpair.1
      have ihh := ih hpair.2
      cases hse : sessionEvents items with
      | mk es b =>
        rw [hse] at hsnd
        have hb : b = true := hsnd
        subst hb
        have hes0 : es.countP isAttempt = 0 := by
          rw [List.countP_eq_zero]
          intro ev hev
          obtain ⟨c, d, he, _⟩ := sessionEvents_mem items ev (by rw [hse]; exact hev)
          subst he
          simp [isAttempt]
        have hes1 : es.countP isClose = 0 := by
          rw [List.countP_eq_zero]
          intro ev hev
          obtain ⟨c, d, he, _⟩ := sessionEvents_mem items ev (by rw [hse]; exact hev)
          subst he
          simp [isClose]
        simp only [subscribeTrace, hse]
        simp [List.countP_cons, List.countP_append, isAttempt, isClose, isOkOutcome,
          hes0, hes1, ihh.1, ihh.2]

/-- C7: a failed subscribe attempt is followed by a fixed one-second sleep
and a retry with the same channel set, without bound on the number of
reattempts (one attempt per environment outcome); after a transport error
in an active session the stale connection is closed and the same
subscription is retried after the same fixed backoff; only delivered
messages ever reach the caller's handler, never a failure. -/
theorem C7_subscribe_retry (channels : List String) (world : List AttemptOutcome) :
    (∀ ch, SubEvent.attempt ch ∈ subscribeTrace channels world → ch = channels)
    ∧ (∀ n, SubEvent.sleep n ∈ subscribeTrace channels world → n = 1)
    ∧ (∀ c d, SubEvent.handlerCall c d ∈ subscribeTrace channels world →
        ∃ items, AttemptOutcome.subOk items ∈ world ∧ RecvItem.message c d ∈ items)
    ∧ (errTerminatedB world = true →
        (subscribeTrace channels world).countP isAttempt = world.length
        ∧ (subscribeTrace channels world).countP isClose = world.countP isOkOutcome)
    ∧ (∀ w1 w2, errTerminatedB w1 = true → world = w1 ++ .subFail :: w2 →
        subscribeTrace channels world =
          subscribeTrace channels w1 ++
            .attempt channels :: .sleep 1 :: subscribeTrace channels w2) := by
  refine ⟨trace_attempts_channels channels world, trace_sleeps_one channels world,
    trace_handler_only_messages channels world, trace_counts channels world, ?_⟩
  intro w1 w2 h1 h2
  subst h2
  rw [subscribeTrace_append channels w1 (.subFail :: w2) h1]
  rfl

/-- Witness for C7 on a world with a failed attempt, an error-terminated
session delivering one message, and another failed attempt. -/
theorem C7_subscribe_retry_witness :
    (subscribeTrace ["ch1"]
        [.subFail, .subOk [.message "ch1" "hi", .recvError], .subFail]).countP isAttempt = 3
    ∧ (subscribeTrace ["ch1"]
        [.subFail, .subOk [.message "ch1" "hi", .recvError], .subFail]).countP isClose = 1 := by
  have h := (C7_subscribe_retry ["ch1"]
    [.subFail, .subOk [.message "ch1" "hi", .recvError], .subFail]).2.2.2.1 (by decide)
  exact ⟨h.1, h.2⟩
